import Mathlib

/-!
# Certificate signer relay (`backend/certificate_signer/main.js`)

A shallow embedding of the Kafka message handler `eachMessage` and of
`sendCertifyAck`, with the observable effects of one handler run made
explicit: the `producer.send` calls in program order, the calls of
`signer.signAndSave`, and the error (if any) with which the handler's promise
rejects.
-/

namespace CertificateSigner

/-! ## JavaScript values -/

/-- JavaScript values as they occur in the signing service's responses and in
rejection reasons: the primitives, and plain data objects given by their own
enumerable properties. -/
inductive JSVal where
  | undefined
  | null
  | bool (b : Bool)
  | num (n : Int)
  | str (s : String)
  | obj (props : List (String × JSVal))

/-- Strict equality `v === c` against a string constant `c`: true exactly when
`v` is the string `c`. -/
def JSVal.strictEqStr : JSVal → String → Bool
  | .str s, c => s == c
  | _, _ => false

/-! ## Buffers and their text form -/

/-- A Node `Buffer`: a sequence of bytes, each entry a value `0 .. 255`
(entries are kept as natural numbers; the decoder treats any entry above
`0xF4` as an ill-formed byte). -/
structure Buffer where
  bytes : List Nat

/-- The replacement character U+FFFD. -/
def replacementChar : Char := Char.ofNat 0xFFFD

/-- What the UTF-8 decoder does with a byte read while no sequence is pending:
either a character is emitted, or a multi-byte sequence starts. -/
inductive LeadResult where
  | emit (c : Char)
  | pending (cp needed lower upper : Nat)

/-- The decoder's step on a byte when no bytes are needed. -/
def utf8Lead (b : Nat) : LeadResult :=
  if b ≤ 0x7F then .emit (Char.ofNat b)
  else if 0xC2 ≤ b ∧ b ≤ 0xDF then .pending (b % 32) 1 0x80 0xBF
  else if 0xE0 ≤ b ∧ b ≤ 0xEF then
    .pending (b % 16) 2 (if b = 0xE0 then 0xA0 else 0x80) (if b = 0xED then 0x9F else 0xBF)
  else if 0xF0 ≤ b ∧ b ≤ 0xF4 then
    .pending (b % 8) 3 (if b = 0xF0 then 0x90 else 0x80) (if b = 0xF4 then 0x8F else 0xBF)
  else .emit replacementChar

/-- The UTF-8 decoder behind `buffer.toString()`: ill-formed input never fails,
each maximal ill-formed part is replaced by U+FFFD.  The state is the code
point being assembled, the number of continuation bytes still needed and the
range allowed for the next continuation byte. -/
def utf8Decode : Nat → Nat → Nat → Nat → List Nat → List Char
  | _, needed, _, _, [] => if needed = 0 then [] else [replacementChar]
  | cp, needed, lower, upper, b :: bs =>
    if needed = 0 then
      match utf8Lead b with
      | .emit c => c :: utf8Decode 0 0 0x80 0xBF bs
      | .pending cp1 n1 lo1 up1 => utf8Decode cp1 n1 lo1 up1 bs
    else if lower ≤ b ∧ b ≤ upper then
      if needed = 1 then Char.ofNat (cp * 64 + b % 64) :: utf8Decode 0 0 0x80 0xBF bs
      else utf8Decode (cp * 64 + b % 64) (needed - 1) 0x80 0xBF bs
    else
      replacementChar ::
        (match utf8Lead b with
         | .emit c => c :: utf8Decode 0 0 0x80 0xBF bs
         | .pending cp1 n1 lo1 up1 => utf8Decode cp1 n1 lo1 up1 bs)

/-- `buffer.toString()`: the buffer's bytes decoded as UTF-8. -/
def Buffer.toString (buf : Buffer) : String :=
  String.mk (utf8Decode 0 0 0x80 0xBF buf.bytes)

/-- The UTF-8 bytes of one character. -/
def utf8EncodeChar (c : Char) : List Nat :=
  let n := c.toNat
  if n < 0x80 then [n]
  else if n < 0x800 then [0xC0 + n / 64, 0x80 + n % 64]
  else if n < 0x10000 then [0xE0 + n / 4096, 0x80 + n / 64 % 64, 0x80 + n % 64]
  else [0xF0 + n / 262144, 0x80 + n / 4096 % 64, 0x80 + n / 64 % 64, 0x80 + n % 64]

/-- The bytes the producer puts on the wire for a string value
(`Buffer.from(text)`): its UTF-8 encoding. -/
def Buffer.ofString (text : String) : Buffer :=
  ⟨text.data.flatMap utf8EncodeChar⟩

/-! ## Configuration, messages and the environment -/

/-- The part of `config/config.js` the handler reads. -/
structure Config where
  CERTIFIED_TOPIC : String
  /-- Truthiness of `config.ENABLE_CERTIFY_ACKNOWLEDGEMENT`. -/
  ENABLE_CERTIFY_ACKNOWLEDGEMENT : Bool

/-- The headers object of a consumed record: a header is a `Buffer` when
present. -/
structure Headers where
  uploadId : Option Buffer
  rowId : Option Buffer

/-- A consumed Kafka message.  The broker client delivers `value` as a `Buffer`,
or as `null` for a record without a value. -/
structure Message where
  value : Option Buffer
  headers : Headers

/-- The response object `res` of the signing service: a numeric HTTP status
code and a payload `res.data`. -/
structure SigningResult where
  status : Nat
  data : JSVal

/-- How the promise returned by `signer.signAndSave` settles. -/
inductive SignOutcome where
  | resolve (res : SigningResult)
  | reject (error : JSVal)

/-- The collaborators of the handler that live outside `main.js`. -/
structure Env where
  /-- The function `JSON.parse` on a text: `none` when it throws a `SyntaxError`. -/
  JSON_parse : String → Option JSVal
  /-- The function `signer.signAndSave` of `./signer`. -/
  signAndSave : JSVal → SignOutcome
  /-- The engine's message text of the `TypeError` raised by reading property
  `name` of `undefined` or `null`. -/
  typeErrorMessage : JSVal → String → String

/-- Property read `base.name` for the property names the handler uses
(`params`, `status`, `errmsg`, `message`): a `TypeError` on `undefined` and
`null`, the own property of an object, `undefined` otherwise. -/
def getProp (env : Env) (base : JSVal) (name : String) : Except JSVal JSVal :=
  match base with
  | .undefined => .error (.obj [("message", .str (env.typeErrorMessage base name))])
  | .null => .error (.obj [("message", .str (env.typeErrorMessage base name))])
  | .obj props => .ok ((props.lookup name).getD .undefined)
  | _ => .ok .undefined

/-! ## Effects -/

/-- The `value` of a produced message: a JavaScript string, or the text
`JSON.stringify(v)` of a value `v`. -/
inductive Payload where
  | text (s : String)
  | JSON_stringify (v : JSVal)

/-- One call `producer.send({topic, messages: [{key, value}]})`; `key` is
`none` for `key: null`. -/
structure SendCall where
  topic : String
  key : Option String
  value : Payload

/-- What one run of the handler does. -/
structure HandlerResult where
  /-- The `producer.send` calls, in program order. -/
  sends : List SendCall
  /-- The arguments of the calls of `signer.signAndSave`. -/
  signCalls : List JSVal
  /-- The error with which the handler's promise rejects, if it does. -/
  raised : Option JSVal

/-! ## The program -/

def REGISTRY_SUCCESS_STATUS : String := "SUCCESSFUL"

def REGISTRY_FAILED_STATUS : String := "UNSUCCESSFUL"

/-- The object passed to `JSON.stringify` for an acknowledgment. -/
def ackBody (uploadId rowId : JSVal) (status : String) (errorMsg : JSVal) : JSVal :=
  .obj [("uploadId", uploadId), ("rowId", rowId), ("status", .str status), ("errorMsg", errorMsg)]

/-- The function `sendCertifyAck(status, uploadId, rowId, errMsg="")`: the
sends it issues.  An `undefined` fourth argument takes the default `""`. -/
def sendCertifyAck (config : Config) (status uploadId rowId errMsgArg : JSVal) : List SendCall :=
  let errMsg := match errMsgArg with
    | .undefined => JSVal.str ""
    | v => v
  if config.ENABLE_CERTIFY_ACKNOWLEDGEMENT then
    if status.strictEqStr REGISTRY_SUCCESS_STATUS then
      [{ topic := "certify_ack", key := none,
         value := .JSON_stringify (ackBody uploadId rowId "SUCCESS" (.str "")) }]
    else if status.strictEqStr REGISTRY_FAILED_STATUS then
      [{ topic := "certify_ack", key := none,
         value := .JSON_stringify (ackBody uploadId rowId "FAILED" errMsg) }]
    else []
  else []

/-- The expression `h ? h.toString() : ''` for a header `h`. -/
def headerText : Option Buffer → String
  | some h => h.toString
  | none => ""

/-- The callback of `.then`: the sends it issues, or the error it throws. -/
def thenCallback (config : Config) (env : Env) (value : Buffer) (uploadId rowId : String)
    (res : SigningResult) : Except JSVal (List SendCall) :=
  if res.status = 200 then
    match getProp env res.data "params" with
    | .error e => .error e
    | .ok params =>
      match getProp env params "status" with
      | .error e => .error e
      | .ok status =>
        match getProp env params "errmsg" with
        | .error e => .error e
        | .ok errmsg =>
          .ok (sendCertifyAck config status (.str uploadId) (.str rowId) errmsg ++
            [{ topic := config.CERTIFIED_TOPIC, key := none, value := .text value.toString }])
  else
    let errMsg := "error occurred while signing/saving of certificate - " ++ toString res.status
    .ok (sendCertifyAck config (.str REGISTRY_FAILED_STATUS) (.str uploadId) (.str rowId)
      (.str errMsg))

/-- The callback of `.catch`. -/
def catchCallback (config : Config) (env : Env) (uploadId rowId : String) (error : JSVal) :
    Except JSVal (List SendCall) :=
  match getProp env error "message" with
  | .error e => .error e
  | .ok message =>
    .ok (sendCertifyAck config (.str REGISTRY_FAILED_STATUS) (.str uploadId) (.str rowId) message)

/-- The handler `eachMessage` of `consumer.run`.  Logging leaves no recorded
effect; the first logging statement evaluates `message.value.toString()`
before the `try` and so throws a `TypeError` when the value is `null`.  The
promise chain is `signAndSave(..).then(thenCallback).catch(catchCallback)`,
awaited inside `try`; an error leaving the chain reaches the outer `catch`,
which reads `e.message`. -/
def eachMessage (config : Config) (env : Env) (message : Message) : HandlerResult :=
  match message.value with
  | none =>
    -- `message.value.toString()` in the logging statement, before the `try`
    { sends := [], signCalls := [],
      raised := some (.obj [("message", .str (env.typeErrorMessage .null "toString"))]) }
  | some value =>
    let uploadId := headerText message.headers.uploadId
    let rowId := headerText message.headers.rowId
    match env.JSON_parse value.toString with
    | none => { sends := [], signCalls := [], raised := none }
    | some jsonMessage =>
      let settled : Except JSVal (List SendCall) :=
        match env.signAndSave jsonMessage with
        | .resolve res =>
          match thenCallback config env value uploadId rowId res with
          | .ok sends => .ok sends
          | .error error => catchCallback config env uploadId rowId error
        | .reject error => catchCallback config env uploadId rowId error
      match settled with
      | .ok sends => { sends := sends, signCalls := [jsonMessage], raised := none }
      | .error e =>
        -- the outer `catch (e)`: `console.error("ERROR: " + e.message)`
        match getProp env e "message" with
        | .ok _ => { sends := [], signCalls := [jsonMessage], raised := none }
        | .error e2 => { sends := [], signCalls := [jsonMessage], raised := some e2 }

/-! ## Concrete inputs -/

/-- The send that forwards the text of a consumed value to `CERTIFIED_TOPIC`. -/
def forwardOf (config : Config) (value : Buffer) : SendCall :=
  { topic := config.CERTIFIED_TOPIC, key := none, value := .text value.toString }

/-- The send of an acknowledgment with the given body fields. -/
def ackOf (uploadId rowId : JSVal) (status : String) (errorMsg : JSVal) : SendCall :=
  { topic := "certify_ack", key := none,
    value := .JSON_stringify (ackBody uploadId rowId status errorMsg) }

/-- A configuration with acknowledgments enabled. -/
def ackConfig : Config :=
  { CERTIFIED_TOPIC := "certified", ENABLE_CERTIFY_ACKNOWLEDGEMENT := true }

/-- A configuration with acknowledgments disabled. -/
def quietConfig : Config :=
  { CERTIFIED_TOPIC := "certified", ENABLE_CERTIFY_ACKNOWLEDGEMENT := false }

/-- A configuration with acknowledgments disabled whose `CERTIFIED_TOPIC` is the
topic named `certify_ack`. -/
def aliasConfig : Config :=
  { CERTIFIED_TOPIC := "certify_ack", ENABLE_CERTIFY_ACKNOWLEDGEMENT := false }

/-- A response of the signing service with a `params` object. -/
def responseOf (status : Nat) (domainStatus errmsg : String) : SigningResult :=
  { status := status,
    data := .obj [("params", .obj [("status", .str domainStatus), ("errmsg", .str errmsg)])] }

/-- An environment whose signing call settles as given, for the sample
messages below.  Its `JSON_parse` gives what `JSON.parse` gives on the two
texts of those messages that are JSON (the number `1`, and the string literal
holding U+FFFD) and throws on the text `oops`, which is not JSON. -/
def envOf (outcome : SignOutcome) : Env :=
  { JSON_parse := fun text =>
      if text = "1" then some (.num 1)
      else if text = "\"\uFFFD\"" then some (.str "\uFFFD")
      else none,
    signAndSave := fun _ => outcome,
    typeErrorMessage := fun _ name => "Cannot read properties of undefined (reading " ++ name ++ ")" }

/-- A message whose value is the JSON text `1`, with both headers. -/
def sampleMessage : Message :=
  { value := some ⟨[49]⟩, headers := { uploadId := some ⟨[117, 55]⟩, rowId := some ⟨[51]⟩ } }

/-- The same message without headers. -/
def bareMessage : Message :=
  { value := some ⟨[49]⟩, headers := { uploadId := none, rowId := none } }

/-- A message whose value is the text `oops`. -/
def malformedMessage : Message :=
  { value := some ⟨[111, 111, 112, 115]⟩, headers := { uploadId := none, rowId := none } }

/-- A message whose value is a JSON string literal holding the single byte
`0xFF`, which is not well-formed UTF-8. -/
def illFormedMessage : Message :=
  { value := some ⟨[34, 255, 34]⟩, headers := { uploadId := none, rowId := none } }

/-- A record without a value. -/
def tombstoneMessage : Message :=
  { value := none, headers := { uploadId := none, rowId := none } }

/-! ## UTF-8: decoding inverts encoding -/

theorem char_toNat_valid (c : Char) : c.toNat < 0xD800 ∨ (0xDFFF < c.toNat ∧ c.toNat < 0x110000) := by
  have h := c.valid
  simpa [Char.toNat, UInt32.isValidChar, Nat.isValidChar] using h

theorem utf8Lead_two (n : Nat) (h1 : 0x80 ≤ n) (h2 : n < 0x800) :
    utf8Lead (0xC0 + n / 64) = .pending (n / 64) 1 0x80 0xBF := by
  have e1 : ¬ (0xC0 + n / 64 ≤ 0x7F) := by omega
  have e2 : 0xC2 ≤ 0xC0 + n / 64 ∧ 0xC0 + n / 64 ≤ 0xDF := by omega
  have e3 : (0xC0 + n / 64) % 32 = n / 64 := by omega
  simp only [utf8Lead, e1, e2, e3, if_true, if_false, and_self]

theorem utf8Lead_three (n : Nat) (h1 : 0x800 ≤ n) (h2 : n < 0x10000) :
    utf8Lead (0xE0 + n / 4096) =
      .pending (n / 4096) 2 (if n / 4096 = 0 then 0xA0 else 0x80)
        (if n / 4096 = 13 then 0x9F else 0xBF) := by
  have e1 : ¬ (0xE0 + n / 4096 ≤ 0x7F) := by omega
  have e2 : ¬ (0xC2 ≤ 0xE0 + n / 4096 ∧ 0xE0 + n / 4096 ≤ 0xDF) := by omega
  have e3 : 0xE0 ≤ 0xE0 + n / 4096 ∧ 0xE0 + n / 4096 ≤ 0xEF := by omega
  have e4 : (0xE0 + n / 4096) % 16 = n / 4096 := by omega
  have e5 : (0xE0 + n / 4096 = 0xE0) = (n / 4096 = 0) := by
    apply propext; constructor <;> intro h <;> omega
  have e6 : (0xE0 + n / 4096 = 0xED) = (n / 4096 = 13) := by
    apply propext; constructor <;> intro h <;> omega
  simp only [utf8Lead, e1, e2, e3, e4, e5, e6, if_true, if_false, and_self]

theorem utf8Lead_four (n : Nat) (h1 : 0x10000 ≤ n) (h2 : n < 0x110000) :
    utf8Lead (0xF0 + n / 262144) =
      .pending (n / 262144) 3 (if n / 262144 = 0 then 0x90 else 0x80)
        (if n / 262144 = 4 then 0x8F else 0xBF) := by
  have e1 : ¬ (0xF0 + n / 262144 ≤ 0x7F) := by omega
  have e2 : ¬ (0xC2 ≤ 0xF0 + n / 262144 ∧ 0xF0 + n / 262144 ≤ 0xDF) := by omega
  have e3 : ¬ (0xE0 ≤ 0xF0 + n / 262144 ∧ 0xF0 + n / 262144 ≤ 0xEF) := by omega
  have e3b : 0xF0 ≤ 0xF0 + n / 262144 ∧ 0xF0 + n / 262144 ≤ 0xF4 := by omega
  have e4 : (0xF0 + n / 262144) % 8 = n / 262144 := by omega
  have e5 : (0xF0 + n / 262144 = 0xF0) = (n / 262144 = 0) := by
    apply propext; constructor <;> intro h <;> omega
  have e6 : (0xF0 + n / 262144 = 0xF4) = (n / 262144 = 4) := by
    apply propext; constructor <;> intro h <;> omega
  simp only [utf8Lead, e1, e2, e3, e3b, e4, e5, e6, if_true, if_false, and_self]

/-- One continuation byte inside the allowed range is consumed. -/
theorem utf8Decode_cont (cp needed lower upper b : Nat) (bs : List Nat)
    (hn : 1 < needed) (hb : lower ≤ b ∧ b ≤ upper) :
    utf8Decode cp needed lower upper (b :: bs) =
      utf8Decode (cp * 64 + b % 64) (needed - 1) 0x80 0xBF bs := by
  have e1 : ¬ needed = 0 := by omega
  have e2 : ¬ needed = 1 := by omega
  rw [utf8Decode]
  simp only [e1, e2, hb, if_true, if_false, and_self]

theorem utf8Decode_last (cp lower upper b : Nat) (bs : List Nat)
    (hb : lower ≤ b ∧ b ≤ upper) :
    utf8Decode cp 1 lower upper (b :: bs) =
      Char.ofNat (cp * 64 + b % 64) :: utf8Decode 0 0 0x80 0xBF bs := by
  rw [utf8Decode]
  simp [hb]

theorem utf8Decode_lead (b : Nat) (bs : List Nat) (cp n lo up : Nat)
    (h : utf8Lead b = .pending cp n lo up) :
    utf8Decode 0 0 0x80 0xBF (b :: bs) = utf8Decode cp n lo up bs := by
  rw [utf8Decode]
  simp [h]

theorem utf8Decode_encodeChar (c : Char) (rest : List Nat) :
    utf8Decode 0 0 0x80 0xBF (utf8EncodeChar c ++ rest) = c :: utf8Decode 0 0 0x80 0xBF rest := by
  have hv := char_toNat_valid c
  have hc : Char.ofNat c.toNat = c := Char.ofNat_toNat c
  generalize hn : c.toNat = n at hv hc
  unfold utf8EncodeChar
  simp only [hn]
  by_cases h1 : n < 0x80
  · have : n ≤ 0x7F := by omega
    simp [h1, utf8Decode, utf8Lead, this, hc]
  · by_cases h2 : n < 0x800
    · simp only [h1, h2, if_true, if_false, List.cons_append, List.nil_append]
      rw [utf8Decode_lead _ _ _ _ _ _ (utf8Lead_two n (by omega) h2),
        utf8Decode_last _ _ _ _ _ (by omega)]
      have : n / 64 * 64 + (0x80 + n % 64) % 64 = n := by omega
      rw [this, hc]
    · by_cases h3 : n < 0x10000
      · simp only [h1, h2, h3, if_true, if_false, List.cons_append, List.nil_append]
        rw [utf8Decode_lead _ _ _ _ _ _ (utf8Lead_three n (by omega) h3),
          utf8Decode_cont _ _ _ _ _ _ (by omega) (by split_ifs <;> omega),
          utf8Decode_last _ _ _ _ _ (by omega)]
        have : (n / 4096 * 64 + (0x80 + n / 64 % 64) % 64) * 64 + (0x80 + n % 64) % 64 = n := by
          omega
        rw [this, hc]
      · simp only [h1, h2, h3, if_true, if_false, List.cons_append, List.nil_append]
        rw [utf8Decode_lead _ _ _ _ _ _ (utf8Lead_four n (by omega) (by omega)),
          utf8Decode_cont _ _ _ _ _ _ (by omega) (by split_ifs <;> omega),
          utf8Decode_cont _ _ _ _ _ _ (by omega) (by omega),
          utf8Decode_last _ _ _ _ _ (by omega)]
        have : ((n / 262144 * 64 + (0x80 + n / 4096 % 64) % 64) * 64 +
            (0x80 + n / 64 % 64) % 64) * 64 + (0x80 + n % 64) % 64 = n := by
          omega
        rw [this, hc]

theorem utf8Decode_encode (cs : List Char) :
    utf8Decode 0 0 0x80 0xBF (cs.flatMap utf8EncodeChar) = cs := by
  induction cs with
  | nil => simp [utf8Decode]
  | cons c cs ih => rw [List.flatMap_cons, utf8Decode_encodeChar, ih]

theorem toString_ofString (text : String) : (Buffer.ofString text).toString = text := by
  simp [Buffer.toString, Buffer.ofString, utf8Decode_encode]

/-! ## Reading properties -/

theorem getProp_ok_total (env : Env) (base v : JSVal) (a b : String)
    (h : getProp env base a = .ok v) : ∃ w, getProp env base b = .ok w := by
  cases base <;> simp [getProp] at h ⊢

theorem strictEqStr_iff (v : JSVal) (c : String) : v.strictEqStr c = true ↔ v = .str c := by
  cases v <;> simp [JSVal.strictEqStr]

/-! ## The handler on a parsed message -/

theorem eachMessage_resolved (config : Config) (env : Env) (message : Message) (value : Buffer)
    (jsonMessage : JSVal) (res : SigningResult) (sends : List SendCall)
    (hv : message.value = some value)
    (hparse : env.JSON_parse value.toString = some jsonMessage)
    (hsign : env.signAndSave jsonMessage = .resolve res)
    (hthen : thenCallback config env value (headerText message.headers.uploadId)
      (headerText message.headers.rowId) res = .ok sends) :
    eachMessage config env message =
      { sends := sends, signCalls := [jsonMessage], raised := none } := by
  simp [eachMessage, hv, hparse, hsign, hthen]

theorem getProp_error_shape (env : Env) (base e : JSVal) (name : String)
    (h : getProp env base name = .error e) : ∃ text, e = .obj [("message", .str text)] := by
  cases base <;> simp [getProp] at h <;> exact ⟨_, h.symm⟩

theorem getProp_thrown_message (env : Env) (base e : JSVal) (name : String)
    (h : getProp env base name = .error e) : ∃ w, getProp env e "message" = .ok w := by
  obtain ⟨text, rfl⟩ := getProp_error_shape env base e name h
  exact ⟨_, rfl⟩

theorem sendCertifyAck_shape (config : Config) (status uploadId rowId errMsg : JSVal) :
    ∀ c ∈ sendCertifyAck config status uploadId rowId errMsg,
      ∃ st em, c = ackOf uploadId rowId st em := by
  intro c hc
  unfold sendCertifyAck at hc
  split_ifs at hc <;> simp at hc <;> exact ⟨_, _, hc⟩

theorem thenCallback_shape (config : Config) (env : Env) (value : Buffer)
    (uploadId rowId : String) (res : SigningResult) (sends : List SendCall)
    (h : thenCallback config env value uploadId rowId res = .ok sends) :
    ∀ c ∈ sends, c = forwardOf config value ∨
      ∃ st em, c = ackOf (.str uploadId) (.str rowId) st em := by
  intro c hc
  unfold thenCallback at h
  split_ifs at h
  · split at h
    · simp at h
    · split at h
      · simp at h
      · split at h
        · simp at h
        · simp only [Except.ok.injEq] at h
          subst h
          rcases List.mem_append.mp hc with hc | hc
          · exact Or.inr (sendCertifyAck_shape _ _ _ _ _ c hc)
          · left; simpa [forwardOf] using hc
  · simp only [Except.ok.injEq] at h
    subst h
    exact Or.inr (sendCertifyAck_shape _ _ _ _ _ c hc)

theorem thenCallback_thrown (config : Config) (env : Env) (value : Buffer)
    (uploadId rowId : String) (res : SigningResult) (e : JSVal)
    (h : thenCallback config env value uploadId rowId res = .error e) :
    ∃ text, e = .obj [("message", .str text)] := by
  unfold thenCallback at h
  split_ifs at h
  · split at h
    · rename_i e1 h1
      simp only [Except.error.injEq] at h
      subst h
      exact getProp_error_shape _ _ _ _ h1
    · split at h
      · rename_i e1 h1
        simp only [Except.error.injEq] at h
        subst h
        exact getProp_error_shape _ _ _ _ h1
      · split at h
        · rename_i e1 h1
          simp only [Except.error.injEq] at h
          subst h
          exact getProp_error_shape _ _ _ _ h1
        · simp at h

theorem catchCallback_shape (config : Config) (env : Env) (uploadId rowId : String)
    (error : JSVal) (sends : List SendCall)
    (h : catchCallback config env uploadId rowId error = .ok sends) :
    ∀ c ∈ sends, ∃ st em, c = ackOf (.str uploadId) (.str rowId) st em := by
  intro c hc
  unfold catchCallback at h
  split at h
  · simp at h
  · simp only [Except.ok.injEq] at h
    subst h
    exact sendCertifyAck_shape _ _ _ _ _ c hc

theorem catchCallback_thrown (config : Config) (env : Env) (uploadId rowId : String)
    (error e : JSVal) (h : catchCallback config env uploadId rowId error = .error e) :
    ∃ w, getProp env e "message" = .ok w := by
  unfold catchCallback at h
  split at h
  · rename_i e1 h1
    simp only [Except.error.injEq] at h
    subst h
    exact getProp_thrown_message _ _ _ _ h1
  · simp at h

/-- The handler on a message with a value: it never rejects, and each of its
sends is the forward of the value or an acknowledgment carrying the header
texts. -/
theorem eachMessage_shape (config : Config) (env : Env) (message : Message) (value : Buffer)
    (hv : message.value = some value) :
    (eachMessage config env message).raised = none ∧
      ∀ c ∈ (eachMessage config env message).sends,
        c = forwardOf config value ∨
          ∃ st em, c = ackOf (.str (headerText message.headers.uploadId))
            (.str (headerText message.headers.rowId)) st em := by
  unfold eachMessage
  simp only [hv]
  cases hp : env.JSON_parse value.toString with
  | none => simp
  | some jsonMessage =>
    simp only
    cases hs : env.signAndSave jsonMessage with
    | resolve res =>
      simp only
      cases ht : thenCallback config env value (headerText message.headers.uploadId)
          (headerText message.headers.rowId) res with
      | ok sends =>
        simp only
        exact ⟨trivial, thenCallback_shape _ _ _ _ _ _ _ ht⟩
      | error e =>
        simp only
        cases hc : catchCallback config env (headerText message.headers.uploadId)
            (headerText message.headers.rowId) e with
        | ok sends =>
          simp only
          exact ⟨trivial, fun c hcm => Or.inr (catchCallback_shape _ _ _ _ _ _ hc c hcm)⟩
        | error e2 =>
          obtain ⟨w, hw⟩ := catchCallback_thrown _ _ _ _ _ _ hc
          simp [hw]
    | reject error =>
      simp only
      cases hc : catchCallback config env (headerText message.headers.uploadId)
          (headerText message.headers.rowId) error with
      | ok sends =>
        simp only
        exact ⟨trivial, fun c hcm => Or.inr (catchCallback_shape _ _ _ _ _ _ hc c hcm)⟩
      | error e2 =>
        obtain ⟨w, hw⟩ := catchCallback_thrown _ _ _ _ _ _ hc
        simp [hw]

theorem sendCertifyAck_disabled (config : Config) (status uploadId rowId errMsg : JSVal)
    (hen : config.ENABLE_CERTIFY_ACKNOWLEDGEMENT = false) :
    sendCertifyAck config status uploadId rowId errMsg = [] := by
  simp [sendCertifyAck, hen]

theorem sendCertifyAck_topics (config : Config) (status u r u2 r2 errMsg : JSVal) :
    (sendCertifyAck config status u r errMsg).map (fun c => c.topic) =
      (sendCertifyAck config status u2 r2 errMsg).map (fun c => c.topic) := by
  unfold sendCertifyAck
  split_ifs <;> rfl

/-- The sends of the handler on a message with a value are the empty list, the
sends of a `.then` callback that returned, or those of a `.catch` callback that
returned. -/
theorem eachMessage_sends_of (P : List SendCall → Prop) (config : Config) (env : Env)
    (message : Message) (value : Buffer) (hv : message.value = some value) (hnil : P [])
    (hthen : ∀ res sends, thenCallback config env value (headerText message.headers.uploadId)
      (headerText message.headers.rowId) res = .ok sends → P sends)
    (hcatch : ∀ error sends, catchCallback config env (headerText message.headers.uploadId)
      (headerText message.headers.rowId) error = .ok sends → P sends) :
    P (eachMessage config env message).sends := by
  unfold eachMessage
  simp only [hv]
  cases hp : env.JSON_parse value.toString with
  | none => exact hnil
  | some jsonMessage =>
    simp only
    cases hs : env.signAndSave jsonMessage with
    | resolve res =>
      simp only
      cases ht : thenCallback config env value (headerText message.headers.uploadId)
          (headerText message.headers.rowId) res with
      | ok sends => exact hthen _ _ ht
      | error e =>
        simp only
        cases hc : catchCallback config env (headerText message.headers.uploadId)
            (headerText message.headers.rowId) e with
        | ok sends => exact hcatch _ _ hc
        | error e2 =>
          simp only
          split <;> exact hnil
    | reject error =>
      simp only
      cases hc : catchCallback config env (headerText message.headers.uploadId)
          (headerText message.headers.rowId) error with
      | ok sends => exact hcatch _ _ hc
      | error e2 =>
        simp only
        split <;> exact hnil

theorem thenCallback_disabled (config : Config) (env : Env) (value : Buffer)
    (uploadId rowId : String) (res : SigningResult) (sends : List SendCall)
    (hen : config.ENABLE_CERTIFY_ACKNOWLEDGEMENT = false)
    (h : thenCallback config env value uploadId rowId res = .ok sends) :
    ∀ c ∈ sends, c = forwardOf config value := by
  intro c hc
  rcases thenCallback_shape config env value uploadId rowId res sends h c hc with h1 | ⟨st, em, h1⟩
  · exact h1
  · exfalso
    subst h1
    unfold thenCallback at h
    simp only [sendCertifyAck_disabled _ _ _ _ _ hen] at h
    split_ifs at h
    · split at h
      · simp at h
      · split at h
        · simp at h
        · split at h
          · simp at h
          · simp only [Except.ok.injEq] at h
            subst h
            simp [ackOf] at hc
    · simp only [Except.ok.injEq] at h
      subst h
      simp at hc

theorem catchCallback_disabled (config : Config) (env : Env) (uploadId rowId : String)
    (error : JSVal) (sends : List SendCall)
    (hen : config.ENABLE_CERTIFY_ACKNOWLEDGEMENT = false)
    (h : catchCallback config env uploadId rowId error = .ok sends) : sends = [] := by
  unfold catchCallback at h
  simp only [sendCertifyAck_disabled _ _ _ _ _ hen] at h
  split at h
  · simp at h
  · simpa using h.symm

theorem eachMessage_disabled (config : Config) (env : Env) (message : Message)
    (hen : config.ENABLE_CERTIFY_ACKNOWLEDGEMENT = false) :
    ∀ c ∈ (eachMessage config env message).sends,
      ∃ value, message.value = some value ∧ c = forwardOf config value := by
  cases hv : message.value with
  | none => simp [eachMessage, hv]
  | some value =>
    have := eachMessage_sends_of (fun sends => ∀ c ∈ sends, c = forwardOf config value)
      config env message value hv (by simp)
      (fun res sends h => thenCallback_disabled _ _ _ _ _ _ _ hen h)
      (fun error sends h => by rw [catchCallback_disabled _ _ _ _ _ _ hen h]; simp)
    intro c hc
    exact ⟨value, rfl, this c hc⟩

theorem thenCallback_topics (config : Config) (env : Env) (value : Buffer)
    (u r u2 r2 : String) (res : SigningResult) :
    (thenCallback config env value u r res).map (List.map (fun c => c.topic)) =
      (thenCallback config env value u2 r2 res).map (List.map (fun c => c.topic)) := by
  unfold thenCallback
  split_ifs
  · cases getProp env res.data "params" with
    | error e => rfl
    | ok params =>
      simp only
      cases getProp env params "status" with
      | error e => rfl
      | ok status =>
        simp only
        cases getProp env params "errmsg" with
        | error e => rfl
        | ok errmsg =>
          simp only [Except.map, List.map_append, List.map_cons, List.map_nil]
          rw [sendCertifyAck_topics config status (.str u) (.str r) (.str u2) (.str r2)]
  · simp only [Except.map]
    rw [sendCertifyAck_topics config _ (.str u) (.str r) (.str u2) (.str r2)]

theorem catchCallback_topics (config : Config) (env : Env) (u r u2 r2 : String) (error : JSVal) :
    (catchCallback config env u r error).map (List.map (fun c => c.topic)) =
      (catchCallback config env u2 r2 error).map (List.map (fun c => c.topic)) := by
  unfold catchCallback
  cases getProp env error "message" with
  | error e => rfl
  | ok message =>
    simp only [Except.map]
    rw [sendCertifyAck_topics config _ (.str u) (.str r) (.str u2) (.str r2)]

theorem settled_catch_headers (config : Config) (env : Env) (u r u2 r2 : String)
    (error jsonMessage : JSVal) :
    let run := fun (settled : Except JSVal (List SendCall)) =>
      (match settled with
        | .ok sends => ({ sends := sends, signCalls := [jsonMessage], raised := none } : HandlerResult)
        | .error e =>
          match getProp env e "message" with
          | .ok _ => { sends := [], signCalls := [jsonMessage], raised := none }
          | .error e2 => { sends := [], signCalls := [jsonMessage], raised := some e2 })
    (run (catchCallback config env u r error)).raised =
        (run (catchCallback config env u2 r2 error)).raised ∧
      (run (catchCallback config env u r error)).sends.map (fun c => c.topic) =
        (run (catchCallback config env u2 r2 error)).sends.map (fun c => c.topic) ∧
      (run (catchCallback config env u r error)).signCalls =
        (run (catchCallback config env u2 r2 error)).signCalls := by
  intro run
  have ht := catchCallback_topics config env u r u2 r2 error
  cases h1 : catchCallback config env u r error <;>
    cases h2 : catchCallback config env u2 r2 error <;>
    rw [h1, h2] at ht <;> simp [Except.map] at ht
  · subst ht
    exact ⟨rfl, rfl, by simp only [run]⟩
  · exact ⟨rfl, by simpa [run] using ht, rfl⟩

/-- The headers of a message influence neither whether the handler rejects, nor
the calls of the signer, nor the topics it sends to. -/
theorem eachMessage_headers (config : Config) (env : Env) (value : Option Buffer)
    (h1 h2 : Headers) :
    (eachMessage config env { value := value, headers := h1 }).raised =
        (eachMessage config env { value := value, headers := h2 }).raised ∧
      (eachMessage config env { value := value, headers := h1 }).sends.map (fun c => c.topic) =
        (eachMessage config env { value := value, headers := h2 }).sends.map (fun c => c.topic) ∧
      (eachMessage config env { value := value, headers := h1 }).signCalls =
        (eachMessage config env { value := value, headers := h2 }).signCalls := by
  cases value with
  | none => exact ⟨rfl, rfl, rfl⟩
  | some v =>
    unfold eachMessage
    simp only
    cases hp : env.JSON_parse v.toString with
    | none => exact ⟨rfl, rfl, rfl⟩
    | some jsonMessage =>
      simp only
      cases hs : env.signAndSave jsonMessage with
      | reject error => exact settled_catch_headers config env _ _ _ _ error jsonMessage
      | resolve res =>
        simp only
        have ht := thenCallback_topics config env v (headerText h1.uploadId)
          (headerText h1.rowId) (headerText h2.uploadId) (headerText h2.rowId) res
        cases t1 : thenCallback config env v (headerText h1.uploadId) (headerText h1.rowId) res <;>
          cases t2 : thenCallback config env v (headerText h2.uploadId)
            (headerText h2.rowId) res <;>
          rw [t1, t2] at ht <;> simp [Except.map] at ht
        · subst ht
          exact settled_catch_headers config env _ _ _ _ _ jsonMessage
        · exact ⟨rfl, by simpa using ht, rfl⟩

/-! ## Claims -/

/-- C1 (counterexample): the value `"\xFF"` parses as JSON after decoding and
the signing call resolves with status 200 and domain status `SUCCESSFUL`; the
handler publishes the `SUCCESS` acknowledgment and one message to
`CERTIFIED_TOPIC`, but the bytes of the value it publishes there are
`22 EF BF BD 22`, not the bytes `22 FF 22` of the message's value. -/
theorem success_value_not_message_value :
    illFormedMessage.value = some ⟨[34, 255, 34]⟩ ∧
    (envOf (.resolve (responseOf 200 "SUCCESSFUL" ""))).JSON_parse
        (Buffer.toString ⟨[34, 255, 34]⟩) = some (.str "\uFFFD") ∧
    (eachMessage ackConfig (envOf (.resolve (responseOf 200 "SUCCESSFUL" "")))
        illFormedMessage).sends =
      [{ topic := "certify_ack", key := none,
         value := .JSON_stringify (.obj [("uploadId", .str ""), ("rowId", .str ""),
           ("status", .str "SUCCESS"), ("errorMsg", .str "")]) },
       { topic := "certified", key := none, value := .text "\"\uFFFD\"" }] ∧
    (Buffer.ofString "\"\uFFFD\"").bytes = [34, 239, 191, 189, 34] ∧
    (Buffer.ofString "\"\uFFFD\"").bytes ≠ [34, 255, 34] := by
  refine ⟨rfl, rfl, rfl, by decide, by decide⟩

/-- C1 (amended): when the value parses as JSON and the signing call resolves
with status 200 and domain status `SUCCESSFUL`, the handler's sends are
exactly: when acknowledgments are enabled one `certify_ack` event whose body
has status `SUCCESS`, the message's uploadId and rowId and errorMsg `""`
(whatever `errmsg` was), and then one send to `CERTIFIED_TOPIC` with key `null`
and value the text `message.value.toString()`; the bytes of that value are the
bytes of the message's value whenever the message's value is well-formed
UTF-8. -/
theorem success_sends (config : Config) (env : Env) (message : Message) (value : Buffer)
    (jsonMessage params : JSVal) (res : SigningResult)
    (hv : message.value = some value)
    (hparse : env.JSON_parse value.toString = some jsonMessage)
    (hsign : env.signAndSave jsonMessage = .resolve res)
    (hstatus : res.status = 200)
    (hparams : getProp env res.data "params" = .ok params)
    (hdomain : getProp env params "status" = .ok (.str "SUCCESSFUL")) :
    (eachMessage config env message).sends =
        (if config.ENABLE_CERTIFY_ACKNOWLEDGEMENT then
          [{ topic := "certify_ack", key := none,
             value := .JSON_stringify (.obj
               [("uploadId", .str (match message.headers.uploadId with
                  | some h => h.toString
                  | none => "")),
                ("rowId", .str (match message.headers.rowId with
                  | some h => h.toString
                  | none => "")),
                ("status", .str "SUCCESS"), ("errorMsg", .str "")]) }]
         else []) ++
        [{ topic := config.CERTIFIED_TOPIC, key := none, value := .text value.toString }] ∧
      ∀ text, value = Buffer.ofString text → Buffer.ofString value.toString = value := by
  obtain ⟨errmsg, herr⟩ := getProp_ok_total env params _ "status" "errmsg" hdomain
  refine ⟨?_, fun text htext => by rw [htext, toString_ofString]⟩
  rw [eachMessage_resolved config env message value jsonMessage res _ hv hparse hsign
    (by simp [thenCallback, hstatus, hparams, hdomain, herr]; rfl)]
  cases hen : config.ENABLE_CERTIFY_ACKNOWLEDGEMENT <;>
    cases message.headers.uploadId <;> cases message.headers.rowId <;>
    simp [sendCertifyAck, hen, JSVal.strictEqStr, REGISTRY_SUCCESS_STATUS, ackBody, headerText]

theorem success_sends_witness :
    (eachMessage ackConfig (envOf (.resolve (responseOf 200 "SUCCESSFUL" "ignored")))
        sampleMessage).sends =
      [{ topic := "certify_ack", key := none,
         value := .JSON_stringify (.obj [("uploadId", .str "u7"), ("rowId", .str "3"),
           ("status", .str "SUCCESS"), ("errorMsg", .str "")]) },
       { topic := "certified", key := none, value := .text "1" }] ∧
      Buffer.ofString (Buffer.toString ⟨[49]⟩) = ⟨[49]⟩ :=
  have h := success_sends ackConfig (envOf (.resolve (responseOf 200 "SUCCESSFUL" "ignored")))
    sampleMessage ⟨[49]⟩ (.num 1)
    (.obj [("status", .str "SUCCESSFUL"), ("errmsg", .str "ignored")])
    (responseOf 200 "SUCCESSFUL" "ignored") rfl rfl rfl rfl rfl rfl
  ⟨h.1, h.2 "1" rfl⟩

/-- C2 (the code at the failing input): the signing call resolves with status
200 and domain status `UNSUCCESSFUL`; the handler acknowledges `FAILED` and
still sends the message's value to `CERTIFIED_TOPIC`. -/
theorem unsuccessful_is_forwarded :
    (eachMessage ackConfig (envOf (.resolve (responseOf 200 "UNSUCCESSFUL" "duplicate")))
        sampleMessage).sends =
      [{ topic := "certify_ack", key := none,
         value := .JSON_stringify (.obj [("uploadId", .str "u7"), ("rowId", .str "3"),
           ("status", .str "FAILED"), ("errorMsg", .str "duplicate")]) },
       { topic := ackConfig.CERTIFIED_TOPIC, key := none, value := .text "1" }] := by
  rfl

/-- C3: when the value parses as JSON and the signing call resolves with a
status other than 200, the handler's sends are exactly: when acknowledgments
are enabled one `certify_ack` event whose body has status `FAILED`, the
message's uploadId and rowId and the errorMsg
`"error occurred while signing/saving of certificate - "` followed by the
status code; nothing else, so nothing goes to `CERTIFIED_TOPIC`. -/
theorem non200_sends (config : Config) (env : Env) (message : Message) (value : Buffer)
    (jsonMessage : JSVal) (res : SigningResult)
    (hv : message.value = some value)
    (hparse : env.JSON_parse value.toString = some jsonMessage)
    (hsign : env.signAndSave jsonMessage = .resolve res)
    (hstatus : res.status ≠ 200) :
    (eachMessage config env message).sends =
      if config.ENABLE_CERTIFY_ACKNOWLEDGEMENT then
        [{ topic := "certify_ack", key := none,
           value := .JSON_stringify (.obj
             [("uploadId", .str (match message.headers.uploadId with
                | some h => h.toString
                | none => "")),
              ("rowId", .str (match message.headers.rowId with
                | some h => h.toString
                | none => "")),
              ("status", .str "FAILED"),
              ("errorMsg", .str ("error occurred while signing/saving of certificate - " ++
                toString res.status))]) }]
      else [] := by
  rw [eachMessage_resolved config env message value jsonMessage res _ hv hparse hsign
    (by simp [thenCallback, hstatus]; rfl)]
  cases hen : config.ENABLE_CERTIFY_ACKNOWLEDGEMENT <;>
    cases message.headers.uploadId <;> cases message.headers.rowId <;>
    simp [sendCertifyAck, hen, JSVal.strictEqStr, REGISTRY_SUCCESS_STATUS,
      REGISTRY_FAILED_STATUS, ackBody, headerText]

theorem non200_sends_witness :
    (eachMessage ackConfig (envOf (.resolve (responseOf 500 "SUCCESSFUL" ""))) sampleMessage).sends =
      [{ topic := "certify_ack", key := none,
         value := .JSON_stringify (.obj [("uploadId", .str "u7"), ("rowId", .str "3"),
           ("status", .str "FAILED"),
           ("errorMsg", .str "error occurred while signing/saving of certificate - 500")]) }] :=
  non200_sends ackConfig (envOf (.resolve (responseOf 500 "SUCCESSFUL" ""))) sampleMessage
    ⟨[49]⟩ (.num 1) (responseOf 500 "SUCCESSFUL" "") rfl rfl rfl (by decide)

/-- C4: when the value parses as JSON and the signing call rejects with an
error whose `message` is a string, the handler's sends are exactly: when
acknowledgments are enabled one `certify_ack` event whose body has status
`FAILED`, the message's uploadId and rowId and errorMsg equal to that message
text; nothing else, so nothing goes to `CERTIFIED_TOPIC`. -/
theorem rejection_sends (config : Config) (env : Env) (message : Message) (value : Buffer)
    (jsonMessage error : JSVal) (text : String)
    (hv : message.value = some value)
    (hparse : env.JSON_parse value.toString = some jsonMessage)
    (hsign : env.signAndSave jsonMessage = .reject error)
    (hmessage : getProp env error "message" = .ok (.str text)) :
    (eachMessage config env message).sends =
      if config.ENABLE_CERTIFY_ACKNOWLEDGEMENT then
        [{ topic := "certify_ack", key := none,
           value := .JSON_stringify (.obj
             [("uploadId", .str (match message.headers.uploadId with
                | some h => h.toString
                | none => "")),
              ("rowId", .str (match message.headers.rowId with
                | some h => h.toString
                | none => "")),
              ("status", .str "FAILED"), ("errorMsg", .str text)]) }]
      else [] := by
  have hu : (match message.headers.uploadId with
      | some h => h.toString
      | none => "") = headerText message.headers.uploadId := by
    cases message.headers.uploadId <;> rfl
  have hr : (match message.headers.rowId with
      | some h => h.toString
      | none => "") = headerText message.headers.rowId := by
    cases message.headers.rowId <;> rfl
  rw [hu, hr]
  cases hen : config.ENABLE_CERTIFY_ACKNOWLEDGEMENT <;>
    simp [eachMessage, hv, hparse, hsign, catchCallback, hmessage, sendCertifyAck, hen,
      JSVal.strictEqStr, REGISTRY_SUCCESS_STATUS, REGISTRY_FAILED_STATUS, ackBody]

theorem rejection_sends_witness :
    (eachMessage ackConfig (envOf (.reject (.obj [("message", .str "connect ECONNREFUSED")])))
        sampleMessage).sends =
      [{ topic := "certify_ack", key := none,
         value := .JSON_stringify (.obj [("uploadId", .str "u7"), ("rowId", .str "3"),
           ("status", .str "FAILED"), ("errorMsg", .str "connect ECONNREFUSED")]) }] :=
  rejection_sends ackConfig (envOf (.reject (.obj [("message", .str "connect ECONNREFUSED")])))
    sampleMessage ⟨[49]⟩ (.num 1) (.obj [("message", .str "connect ECONNREFUSED")])
    "connect ECONNREFUSED" rfl rfl rfl rfl

/-- C5: with acknowledgments enabled, `sendCertifyAck(status, uploadId, rowId,
errMsg)` issues exactly one `certify_ack` event whose body has status
`SUCCESS` (and errorMsg `""`) for the status `"SUCCESSFUL"`, exactly one whose
body has status `FAILED` and errorMsg equal to the parameter `errMsg` (which is
`""` when the argument is `undefined`) for the status `"UNSUCCESSFUL"`, and
nothing for every other status value. -/
theorem sendCertifyAck_mapping (config : Config) (uploadId rowId errMsg : JSVal)
    (hen : config.ENABLE_CERTIFY_ACKNOWLEDGEMENT = true) :
    sendCertifyAck config (.str "SUCCESSFUL") uploadId rowId errMsg =
        [{ topic := "certify_ack", key := none,
           value := .JSON_stringify (.obj [("uploadId", uploadId), ("rowId", rowId),
             ("status", .str "SUCCESS"), ("errorMsg", .str "")]) }] ∧
      (errMsg ≠ .undefined →
        sendCertifyAck config (.str "UNSUCCESSFUL") uploadId rowId errMsg =
          [{ topic := "certify_ack", key := none,
             value := .JSON_stringify (.obj [("uploadId", uploadId), ("rowId", rowId),
               ("status", .str "FAILED"), ("errorMsg", errMsg)]) }]) ∧
      sendCertifyAck config (.str "UNSUCCESSFUL") uploadId rowId .undefined =
        [{ topic := "certify_ack", key := none,
           value := .JSON_stringify (.obj [("uploadId", uploadId), ("rowId", rowId),
             ("status", .str "FAILED"), ("errorMsg", .str "")]) }] ∧
      ∀ status : JSVal, status ≠ .str "SUCCESSFUL" → status ≠ .str "UNSUCCESSFUL" →
        sendCertifyAck config status uploadId rowId errMsg = [] := by
  refine ⟨?_, ?_, ?_, ?_⟩
  · simp [sendCertifyAck, hen, JSVal.strictEqStr, REGISTRY_SUCCESS_STATUS, ackBody]
  · intro hne
    cases errMsg <;>
      simp_all [sendCertifyAck, JSVal.strictEqStr, REGISTRY_SUCCESS_STATUS,
        REGISTRY_FAILED_STATUS, ackBody]
  · simp [sendCertifyAck, hen, JSVal.strictEqStr, REGISTRY_SUCCESS_STATUS,
      REGISTRY_FAILED_STATUS, ackBody]
  · intro status h1 h2
    have e1 : status.strictEqStr REGISTRY_SUCCESS_STATUS = false := by
      rw [← Bool.not_eq_true, strictEqStr_iff]; exact h1
    have e2 : status.strictEqStr REGISTRY_FAILED_STATUS = false := by
      rw [← Bool.not_eq_true, strictEqStr_iff]; exact h2
    simp [sendCertifyAck, hen, e1, e2]

theorem sendCertifyAck_mapping_witness :
    sendCertifyAck ackConfig (.str "SUCCESSFUL") (.str "u7") (.str "3") (.str "late") =
        [{ topic := "certify_ack", key := none,
           value := .JSON_stringify (.obj [("uploadId", .str "u7"), ("rowId", .str "3"),
             ("status", .str "SUCCESS"), ("errorMsg", .str "")]) }] ∧
      sendCertifyAck ackConfig (.str "UNSUCCESSFUL") (.str "u7") (.str "3") (.str "late") =
        [{ topic := "certify_ack", key := none,
           value := .JSON_stringify (.obj [("uploadId", .str "u7"), ("rowId", .str "3"),
             ("status", .str "FAILED"), ("errorMsg", .str "late")]) }] ∧
      sendCertifyAck ackConfig (.str "UNSUCCESSFUL") (.str "u7") (.str "3") .undefined =
        [{ topic := "certify_ack", key := none,
           value := .JSON_stringify (.obj [("uploadId", .str "u7"), ("rowId", .str "3"),
             ("status", .str "FAILED"), ("errorMsg", .str "")]) }] ∧
      sendCertifyAck ackConfig (.str "PENDING") (.str "u7") (.str "3") (.str "late") = [] :=
  have h := sendCertifyAck_mapping ackConfig (.str "u7") (.str "3") (.str "late") rfl
  ⟨h.1, h.2.1 (by simp), h.2.2.1, h.2.2.2 (.str "PENDING") (by simp) (by simp)⟩

/-- C6 (counterexample): the value `"\xFF"` (a JSON string literal holding the
byte `0xFF`) is forwarded, and the bytes of the published value differ from
the bytes consumed: the ill-formed byte comes back as the three bytes of
U+FFFD. -/
theorem forward_reencodes_ill_formed :
    (eachMessage quietConfig (envOf (.resolve (responseOf 200 "SUCCESSFUL" "")))
        illFormedMessage).sends =
      [{ topic := quietConfig.CERTIFIED_TOPIC, key := none, value := .text "\"\uFFFD\"" }] ∧
    (Buffer.ofString "\"\uFFFD\"").bytes = [34, 239, 191, 189, 34] ∧
    illFormedMessage.value.map Buffer.bytes = some [34, 255, 34] ∧
    some (Buffer.ofString "\"\uFFFD\"").bytes ≠ illFormedMessage.value.map Buffer.bytes := by
  refine ⟨rfl, by decide, rfl, by decide⟩

/-- C6 (amended): every value the handler forwards is the text
`message.value.toString()` of the consumed value, and when the consumed value
is well-formed UTF-8 (the encoding of some text) the bytes of the forwarded
value are the raw bytes consumed. -/
theorem forward_bytes_well_formed (config : Config) (env : Env) (message : Message)
    (value : Buffer) (hv : message.value = some value) :
    ∀ c ∈ (eachMessage config env message).sends, ∀ t, c.value = .text t →
      t = value.toString ∧
        ∀ text, value = Buffer.ofString text → Buffer.ofString t = value := by
  intro c hc t ht
  rcases (eachMessage_shape config env message value hv).2 c hc with h | ⟨st, em, h⟩
  · subst h
    simp only [forwardOf, Payload.text.injEq] at ht
    subst ht
    refine ⟨rfl, ?_⟩
    intro text htext
    rw [htext, toString_ofString]
  · subst h
    simp [ackOf] at ht

theorem forward_bytes_well_formed_witness :
    (eachMessage quietConfig (envOf (.resolve (responseOf 200 "SUCCESSFUL" "")))
        sampleMessage).sends = [{ topic := "certified", key := none, value := .text "1" }] ∧
      "1" = (Buffer.mk [49]).toString ∧ Buffer.ofString "1" = Buffer.mk [49] :=
  have h := forward_bytes_well_formed quietConfig
    (envOf (.resolve (responseOf 200 "SUCCESSFUL" ""))) sampleMessage ⟨[49]⟩ rfl
    { topic := "certified", key := none, value := .text "1" }
    (List.mem_singleton.mpr rfl) "1" rfl
  ⟨rfl, h.1, h.2 "1" rfl⟩

/-- C7 (the code at the failing input): for a record without a value the
handler's promise rejects, whatever the configuration, the environment and the
headers: the logging statement reads `message.value.toString()` before the
`try`. -/
theorem tombstone_raises (config : Config) (env : Env) (headers : Headers) :
    (eachMessage config env { value := none, headers := headers }).raised =
      some (.obj [("message", .str (env.typeErrorMessage .null "toString"))]) := by
  rfl

/-- C8: when the value does not parse as JSON the handler issues no send at
all and does not call `signer.signAndSave`, whatever the configuration. -/
theorem no_parse_no_effect (config : Config) (env : Env) (message : Message)
    (hparse : ∀ value, message.value = some value → env.JSON_parse value.toString = none) :
    (eachMessage config env message).sends = [] ∧
      (eachMessage config env message).signCalls = [] := by
  unfold eachMessage
  cases hv : message.value with
  | none => simp
  | some value => simp [hparse value hv]

theorem no_parse_no_effect_witness :
    (eachMessage ackConfig (envOf (.resolve (responseOf 200 "SUCCESSFUL" "")))
        malformedMessage).sends = [] ∧
      (eachMessage ackConfig (envOf (.resolve (responseOf 200 "SUCCESSFUL" "")))
        malformedMessage).signCalls = [] :=
  no_parse_no_effect ackConfig (envOf (.resolve (responseOf 200 "SUCCESSFUL" "")))
    malformedMessage (by
      intro value hv
      have e : value = ⟨[111, 111, 112, 115]⟩ := (Option.some.inj hv).symm
      subst e
      rfl)

/-- C9 (counterexample): acknowledgments are disabled and `CERTIFIED_TOPIC` is
configured as `certify_ack`; on a successful signing the handler forwards the
message's value, which is a publish to the topic `certify_ack`. -/
theorem disabled_still_reaches_ack_topic :
    aliasConfig.ENABLE_CERTIFY_ACKNOWLEDGEMENT = false ∧
    (eachMessage aliasConfig (envOf (.resolve (responseOf 200 "SUCCESSFUL" "")))
        sampleMessage).sends =
      [{ topic := "certify_ack", key := none, value := .text "1" }] ∧
    ¬ ∀ c ∈ (eachMessage aliasConfig (envOf (.resolve (responseOf 200 "SUCCESSFUL" "")))
        sampleMessage).sends, c.topic ≠ "certify_ack" := by
  refine ⟨rfl, rfl, ?_⟩
  intro h
  exact h { topic := "certify_ack", key := none, value := .text "1" }
    (List.mem_singleton.mpr rfl) rfl

/-- C9 (amended): with acknowledgments disabled, every send of the handler, for
every message and every signing outcome, is the forward of the message's value
to `CERTIFIED_TOPIC` (none is an acknowledgment), so with `CERTIFIED_TOPIC`
configured to a topic other than `certify_ack` nothing is sent to
`certify_ack`; and `sendCertifyAck` sends nothing for any arguments. -/
theorem disabled_no_ack (config : Config)
    (hen : config.ENABLE_CERTIFY_ACKNOWLEDGEMENT = false) :
    (∀ (env : Env) (message : Message), ∀ c ∈ (eachMessage config env message).sends,
        ∃ value, message.value = some value ∧
          c = { topic := config.CERTIFIED_TOPIC, key := none, value := .text value.toString }) ∧
      (config.CERTIFIED_TOPIC ≠ "certify_ack" →
        ∀ (env : Env) (message : Message), ∀ c ∈ (eachMessage config env message).sends,
          c.topic ≠ "certify_ack") ∧
      ∀ status uploadId rowId errMsg : JSVal,
        sendCertifyAck config status uploadId rowId errMsg = [] := by
  refine ⟨fun env message => eachMessage_disabled config env message hen, ?_,
    fun status uploadId rowId errMsg => sendCertifyAck_disabled _ _ _ _ _ hen⟩
  intro hne env message c hc
  obtain ⟨value, -, rfl⟩ := eachMessage_disabled config env message hen c hc
  exact hne

theorem disabled_no_ack_witness :
    (∀ c ∈ (eachMessage quietConfig (envOf (.resolve (responseOf 200 "UNSUCCESSFUL" "")))
        sampleMessage).sends, c.topic ≠ "certify_ack") ∧
      sendCertifyAck quietConfig (.str "SUCCESSFUL") (.str "u7") (.str "3") (.str "") = [] :=
  have h := disabled_no_ack quietConfig rfl
  ⟨h.2.1 (by decide) (envOf (.resolve (responseOf 200 "UNSUCCESSFUL" ""))) sampleMessage,
    h.2.2 (.str "SUCCESSFUL") (.str "u7") (.str "3") (.str "")⟩

/-- C10: in every acknowledgment the handler publishes, the fields `uploadId`
and `rowId` are the text `toString()` of the message's header when the header
is present and the empty string when it is missing; and removing the headers
of a message changes neither whether the handler fails, nor its calls of the
signer, nor the sequence of topics it publishes to. -/
theorem ack_correlation (config : Config) (env : Env) (message : Message) :
    (∀ c ∈ (eachMessage config env message).sends, ∀ body, c.value = .JSON_stringify body →
        ∃ status errorMsg, body =
          .obj [("uploadId", .str (match message.headers.uploadId with
                  | some h => h.toString
                  | none => "")),
                ("rowId", .str (match message.headers.rowId with
                  | some h => h.toString
                  | none => "")),
                ("status", .str status), ("errorMsg", errorMsg)]) ∧
      (eachMessage config env
          { value := message.value, headers := { uploadId := none, rowId := none } }).raised =
        (eachMessage config env message).raised ∧
      (eachMessage config env
          { value := message.value, headers := { uploadId := none, rowId := none } }).signCalls =
        (eachMessage config env message).signCalls ∧
      (eachMessage config env
          { value := message.value,
            headers := { uploadId := none, rowId := none } }).sends.map (fun c => c.topic) =
        (eachMessage config env message).sends.map (fun c => c.topic) := by
  have hinv := eachMessage_headers config env message.value
    { uploadId := none, rowId := none } message.headers
  refine ⟨?_, hinv.1, hinv.2.2, hinv.2.1⟩
  intro c hc body hbody
  cases hv : message.value with
  | none => simp [eachMessage, hv] at hc
  | some value =>
    rcases (eachMessage_shape config env message value hv).2 c hc with h | ⟨st, em, h⟩
    · subst h
      simp [forwardOf] at hbody
    · subst h
      simp only [ackOf, Payload.JSON_stringify.injEq] at hbody
      subst hbody
      refine ⟨st, em, ?_⟩
      cases message.headers.uploadId <;> cases message.headers.rowId <;> rfl

theorem ack_correlation_witness :
    (eachMessage ackConfig (envOf (.reject (.obj [("message", .str "down")])))
        bareMessage).sends = [ackOf (.str "") (.str "") "FAILED" (.str "down")] ∧
      ∃ status errorMsg, ackBody (.str "") (.str "") "FAILED" (.str "down") =
        .obj [("uploadId", .str ""), ("rowId", .str ""), ("status", .str status),
          ("errorMsg", errorMsg)] :=
  ⟨rfl, (ack_correlation ackConfig (envOf (.reject (.obj [("message", .str "down")])))
    bareMessage).1 (ackOf (.str "") (.str "") "FAILED" (.str "down"))
    (List.mem_singleton.mpr rfl) _ rfl⟩

end CertificateSigner
